import Mathlib

/-!
Verification of the AfroBase image server core (`main.go`).

Go strings are byte sequences; we embed them as `List Nat` with each
element a byte value (0..255 for well-formed inputs).  Pure helpers
(`sanitizeFilename`, the magic-byte sniffer, base64 decoding) become Lean
functions; the upload handler is a function of the payload, the current
unix timestamp, and a flag saying whether the file write succeeds; the
listing handler is a function of the directory enumeration result and the
per-entry `stat` outcomes.
-/

namespace AfroBase

/-- Byte values of an ASCII Lean string (used for the literal strings
appearing in `main.go`). -/
def asciiBytes (s : String) : List Nat :=
  s.data.map Char.toNat

/-! ## Filename sanitizer (`sanitizeFilename`, main.go:187-206)

`strings.ReplaceAll` with a single-byte pattern and a single-byte
replacement acts byte-wise on a Go string. -/

/-- Effect of `strings.ReplaceAll` with one-byte pattern `c` and one-byte
replacement `r` on a single byte. -/
def replByte (c r b : Nat) : Nat :=
  if b = c then r else b

/-- `strings.ReplaceAll` specialised to one-byte pattern `c` and one-byte
replacement `r`. -/
def replaceAllByte (c r : Nat) (s : List Nat) : List Nat :=
  s.map (replByte c r)

/-- `sanitizeFilename` from main.go:187-206: replace space with `_`, the
nine other forbidden bytes with `-`, then truncate to the first 50 bytes
(`len` and slicing in Go are byte-based). -/
def sanitizeFilename (filename : List Nat) : List Nat :=
  let f1 := replaceAllByte 32 95 filename       -- ' '  -> '_'
  let f2 := replaceAllByte 47 45 f1             -- '/'  -> '-'
  let f3 := replaceAllByte 92 45 f2             -- '\\' -> '-'
  let f4 := replaceAllByte 58 45 f3             -- ':'  -> '-'
  let f5 := replaceAllByte 42 45 f4             -- '*'  -> '-'
  let f6 := replaceAllByte 63 45 f5             -- '?'  -> '-'
  let f7 := replaceAllByte 34 45 f6             -- '"'  -> '-'
  let f8 := replaceAllByte 60 45 f7             -- '<'  -> '-'
  let f9 := replaceAllByte 62 45 f8             -- '>'  -> '-'
  let f10 := replaceAllByte 124 45 f9           -- '|'  -> '-'
  if f10.length > 50 then f10.take 50 else f10

/-- The ten bytes `sanitizeFilename` replaces: space, `/`, `\`, `:`, `*`,
`?`, `"`, `<`, `>`, `|`. -/
def forbiddenBytes : List Nat := [32, 47, 92, 58, 42, 63, 34, 60, 62, 124]

/-! ## Content sniffer (main.go:138-155) -/

/-- The extension switch of `handleImageUpload` (main.go:138-155): look at
the first four bytes of the decoded data; fall back to `.jpg` when fewer
than four bytes are present or no magic prefix matches. -/
def sniffExt : List Nat → String
  | a :: b :: c :: d :: _ =>
    if a = 0xFF ∧ b = 0xD8 then ".jpg"
    else if a = 0x89 ∧ b = 0x50 ∧ c = 0x4E ∧ d = 0x47 then ".png"
    else if a = 0x47 ∧ b = 0x49 ∧ c = 0x46 then ".gif"
    else if a = 0x52 ∧ b = 0x49 ∧ c = 0x46 ∧ d = 0x46 then ".webp"
    else ".jpg"
  | _ => ".jpg"

/-! ## Base64 decoding (`base64.StdEncoding.DecodeString`)

The standard padded alphabet; `\n` and `\r` are ignored; the input (after
ignoring newlines) must be a whole number of 4-character quanta, with `=`
padding allowed only in the final quantum; trailing bits are not checked
(Go's non-strict default). -/

/-- Value of one base64 alphabet character, `none` for a byte outside the
standard alphabet. -/
def b64Index (c : Nat) : Option Nat :=
  if 65 ≤ c ∧ c ≤ 90 then some (c - 65)            -- A-Z
  else if 97 ≤ c ∧ c ≤ 122 then some (c - 97 + 26) -- a-z
  else if 48 ≤ c ∧ c ≤ 57 then some (c - 48 + 52)  -- 0-9
  else if c = 43 then some 62                      -- +
  else if c = 47 then some 63                      -- /
  else none

/-- Decode a newline-free base64 byte sequence quantum by quantum. -/
def decodeB64Quanta : List Nat → Option (List Nat)
  | [] => some []
  | a :: b :: c :: d :: rest =>
    match b64Index a, b64Index b with
    | some va, some vb =>
      if c = 61 then                               -- "xx=="
        if d = 61 ∧ rest = [] then some [va * 4 + vb / 16] else none
      else
        match b64Index c with
        | some vc =>
          if d = 61 then                           -- "xxx="
            if rest = [] then some [va * 4 + vb / 16, (vb % 16) * 16 + vc / 4]
            else none
          else
            match b64Index d with
            | some vd =>
              match decodeB64Quanta rest with
              | some t =>
                some ((va * 4 + vb / 16) :: ((vb % 16) * 16 + vc / 4) ::
                      ((vc % 4) * 64 + vd) :: t)
              | none => none
            | none => none
        | none => none
    | _, _ => none
  | _ => none

/-- `base64.StdEncoding.DecodeString` on the bytes of the image field. -/
def decodeBase64 (s : List Nat) : Option (List Nat) :=
  decodeB64Quanta (s.filter (fun c => c ≠ 10 ∧ c ≠ 13))

/-! ## Upload handler (`handleImageUpload`, main.go:108-184) -/

/-- The JSON payload of `POST /upload` (main.go:18-22); each Go string is
a byte sequence. -/
structure ImagePayload where
  title : List Nat
  description : List Nat
  image : List Nat
deriving DecidableEq, Repr

/-- Observable part of a handler response: HTTP status, the `success`
field, the `error` string when present, the `url` bytes when present. -/
structure Response where
  status : Nat
  success : Bool
  error : Option String
  url : Option (List Nat)
deriving DecidableEq, Repr

/-- Decimal digits (`fmt.Sprintf "%d"`) of the unix timestamp, as ASCII
bytes. -/
def natDigits (n : Nat) : List Nat :=
  (Nat.toDigits 10 n).map Char.toNat

/-- The coercion at main.go:159-162: the sanitized title, replaced by the
literal `image` when it is empty. -/
def sanitizedOrDefault (title : List Nat) : List Nat :=
  let sanitizedTitle := sanitizeFilename title
  if sanitizedTitle = [] then asciiBytes "image" else sanitizedTitle

/-- The filename composed at main.go:163:
`{timestamp}_{sanitizedTitle}{fileExt}`. -/
def composeFilename (timestamp : Nat) (title : List Nat)
    (imageData : List Nat) : List Nat :=
  natDigits timestamp ++ [95] ++ sanitizedOrDefault title ++
    asciiBytes (sniffExt imageData)

/-- `handleImageUpload` (main.go:108-184).  `timestamp` is `time.Now().Unix()`
and `writeOk` tells whether `ioutil.WriteFile` succeeds.  The result pairs
the response with the file write performed: `some (filename, contents)`
on success, `none` when nothing was written. -/
def handleImageUpload (payload : ImagePayload) (timestamp : Nat)
    (writeOk : Bool) : Response × Option (List Nat × List Nat) :=
  if payload.image = [] then
    (⟨400, false, some "Image data is required", none⟩, none)
  else
    match decodeBase64 payload.image with
    | none => (⟨400, false, some "Invalid base64 image data", none⟩, none)
    | some imageData =>
      let filename := composeFilename timestamp payload.title imageData
      if writeOk then
        (⟨200, true, none, some (asciiBytes "/uploads/" ++ filename)⟩,
         some (filename, imageData))
      else
        (⟨500, false, some "Failed to save image", none⟩, none)

/-! ## Listing handler (`getImageList`, main.go:66-106) -/

/-- One entry of `ioutil.ReadDir("./uploads")`. -/
structure DirEntry where
  name : List Nat
  isDir : Bool
deriving DecidableEq, Repr

/-- Result of `os.Stat` on one entry. -/
structure FileInfo where
  size : Int
  modTime : Int
deriving DecidableEq, Repr

/-- `filepath.Ext` scanned from the end of the name: the suffix starting
at the final `.` in the final path element, empty if there is no dot.
`extLenRev` walks the reversed name: a `/` stops the scan, a `.` yields an
extension of the bytes walked so far plus the dot. -/
def extLenRev : List Nat → Option Nat
  | [] => none
  | b :: rest =>
    if b = 47 then none
    else if b = 46 then some 1
    else
      match extLenRev rest with
      | some n => some (n + 1)
      | none => none

/-- `filepath.Ext` on a file name. -/
def fileExt (name : List Nat) : List Nat :=
  match extLenRev name.reverse with
  | some n => name.drop (name.length - n)
  | none => []

/-- `strings.TrimSuffix`: drop `suffix` from the end of `s` when it is a
suffix, otherwise return `s` unchanged. -/
def trimSuffix (s suffix : List Nat) : List Nat :=
  if suffix.isSuffixOf s then s.take (s.length - suffix.length) else s

/-- The record built for one stored file at main.go:89-96. -/
structure ImageRecord where
  name : List Nat
  size : Int
  upload_time : Int
  title : List Nat
  description : String
  url : List Nat
deriving DecidableEq, Repr

/-- main.go:89-96: project one directory entry and its `FileInfo` into the
response record. -/
def mkImageRecord (name : List Nat) (info : FileInfo) : ImageRecord :=
  { name := name
    size := info.size
    upload_time := info.modTime
    title := trimSuffix name (fileExt name)
    description := "Uploaded image"
    url := asciiBytes "http://localhost:5174/uploads/" ++ name }

/-- Result of `getImageList`: a 500 error with a message, or a 200 with
the JSON array of records. -/
inductive ListResult where
  | err500 (msg : String)
  | ok (records : List ImageRecord)
deriving DecidableEq, Repr

/-- Loop body of `getImageList` (main.go:79-99): a directory entry is
skipped, its metadata lookup fails and hits `continue`, or it contributes
one record. -/
def entryRecord (stat : List Nat → Option FileInfo) (f : DirEntry) :
    Option ImageRecord :=
  if f.isDir then none
  else
    match stat f.name with
    | none => none
    | some info => some (mkImageRecord f.name info)

/-- `getImageList` (main.go:66-106).  `dir` is the outcome of
`ioutil.ReadDir` (`none` when the directory cannot be enumerated); `stat`
gives the outcome of `os.Stat` per entry name (`none` means the loop body
hits `continue` for that entry).  Directories are skipped; the branch for
an empty `images` slice returns the same empty array. -/
def getImageList (dir : Option (List DirEntry))
    (stat : List Nat → Option FileInfo) : ListResult :=
  match dir with
  | none => .err500 "Failed to read uploads directory"
  | some files => .ok (files.filterMap (entryRecord stat))

/-! ## Spec-side restatements

These two definitions follow the words of the specification (not the
source); the refinement theorems below compare them with the functions
embedded from `main.go`. -/

/-- Per-byte replacement as the spec describes the Sanitizer: space
becomes `_`, the nine other forbidden bytes become `-`, everything else
is untouched. -/
def sanitizeByteSpec (b : Nat) : Nat :=
  if b = 32 then 95
  else if b ∈ ([47, 92, 58, 42, 63, 34, 60, 62, 124] : List Nat) then 45
  else b

/-- The Sanitizer as the spec describes it: replace byte-wise, then
truncate to the first 50 bytes. -/
def sanitizeFilenameSpec (s : List Nat) : List Nat :=
  (s.map sanitizeByteSpec).take 50

/-- The Sniffer as the spec describes it: fewer than four bytes fall back
to `.jpg`; otherwise the magic prefixes are tried in priority order with
`.jpg` as the default. -/
def sniffExtSpec (d : List Nat) : String :=
  if d.length < 4 then ".jpg"
  else if d.take 2 = [0xFF, 0xD8] then ".jpg"
  else if d.take 4 = [0x89, 0x50, 0x4E, 0x47] then ".png"
  else if d.take 3 = [0x47, 0x49, 0x46] then ".gif"
  else if d.take 4 = [0x52, 0x49, 0x46, 0x46] then ".webp"
  else ".jpg"

/-! ## Sanitizer lemmas -/

theorem replByte_chain (b : Nat) :
    replByte 124 45 (replByte 62 45 (replByte 60 45 (replByte 34 45 (replByte 63 45
      (replByte 42 45 (replByte 58 45 (replByte 92 45 (replByte 47 45
        (replByte 32 95 b))))))))) = sanitizeByteSpec b := by
  by_cases h1 : b = 32
  · subst h1; decide
  by_cases h2 : b = 47
  · subst h2; decide
  by_cases h3 : b = 92
  · subst h3; decide
  by_cases h4 : b = 58
  · subst h4; decide
  by_cases h5 : b = 42
  · subst h5; decide
  by_cases h6 : b = 63
  · subst h6; decide
  by_cases h7 : b = 34
  · subst h7; decide
  by_cases h8 : b = 60
  · subst h8; decide
  by_cases h9 : b = 62
  · subst h9; decide
  by_cases h10 : b = 124
  · subst h10; decide
  simp [replByte, sanitizeByteSpec, h1, h2, h3, h4, h5, h6, h7, h8, h9, h10]

theorem replace_chain_eq (s : List Nat) :
    replaceAllByte 124 45 (replaceAllByte 62 45 (replaceAllByte 60 45
      (replaceAllByte 34 45 (replaceAllByte 63 45 (replaceAllByte 42 45
        (replaceAllByte 58 45 (replaceAllByte 92 45 (replaceAllByte 47 45
          (replaceAllByte 32 95 s))))))))) = s.map sanitizeByteSpec := by
  simp only [replaceAllByte, List.map_map]
  congr 1
  funext b
  simpa [Function.comp] using replByte_chain b

theorem sanitizeFilename_eq_spec (s : List Nat) :
    sanitizeFilename s = sanitizeFilenameSpec s := by
  simp only [sanitizeFilename, sanitizeFilenameSpec]
  rw [replace_chain_eq]
  by_cases h : (s.map sanitizeByteSpec).length > 50
  · simp [h]
  · simp only [h, if_false]
    rw [List.take_of_length_le (by omega)]

theorem length_sanitizeFilename (s : List Nat) :
    (sanitizeFilename s).length = min s.length 50 := by
  rw [sanitizeFilename_eq_spec, sanitizeFilenameSpec, List.length_take,
    List.length_map, Nat.min_comm]

theorem sanitizeFilename_eq_nil_iff (s : List Nat) :
    sanitizeFilename s = [] ↔ s = [] := by
  rw [← List.length_eq_zero, length_sanitizeFilename, Nat.min_eq_zero_iff]
  simp [List.length_eq_zero]

theorem sanitizeByteSpec_not_forbidden (b : Nat) :
    sanitizeByteSpec b ∉ forbiddenBytes := by
  unfold sanitizeByteSpec forbiddenBytes
  split_ifs with h1 h2
  · decide
  · decide
  · simp_all

theorem sanitizeFilename_not_forbidden (s : List Nat) :
    ∀ b ∈ sanitizeFilename s, b ∉ forbiddenBytes := by
  intro b hb
  rw [sanitizeFilename_eq_spec, sanitizeFilenameSpec] at hb
  have hb' : b ∈ s.map sanitizeByteSpec := List.take_subset _ _ hb
  obtain ⟨a, _, rfl⟩ := List.mem_map.mp hb'
  exact sanitizeByteSpec_not_forbidden a

/-- C3: the Filename Sanitizer replaces each space with `_` and each of
the nine other forbidden bytes with `-`, leaves every other byte
untouched, then truncates to the first 50 bytes; consequently its output
contains none of the ten forbidden bytes, has length at most 50, and is
deterministic. -/
theorem sanitizer_properties (s : List Nat) :
    sanitizeFilename s = sanitizeFilenameSpec s ∧
    (∀ b ∈ sanitizeFilename s, b ∉ forbiddenBytes) ∧
    (sanitizeFilename s).length ≤ 50 ∧
    ∀ t, s = t → sanitizeFilename s = sanitizeFilename t := by
  refine ⟨sanitizeFilename_eq_spec s, sanitizeFilename_not_forbidden s, ?_, ?_⟩
  · rw [length_sanitizeFilename]; omega
  · rintro t rfl; rfl

/-- Witness for C3 at the concrete title `"a/b"`. -/
theorem sanitizer_properties_witness :
    sanitizeFilename [97, 47, 98] = sanitizeFilenameSpec [97, 47, 98] ∧
    (∀ b ∈ sanitizeFilename [97, 47, 98], b ∉ forbiddenBytes) ∧
    (sanitizeFilename [97, 47, 98]).length ≤ 50 ∧
    ∀ t, [97, 47, 98] = t → sanitizeFilename [97, 47, 98] = sanitizeFilename t :=
  sanitizer_properties [97, 47, 98]

/-- C8: the Sanitizer's output length is exactly `min (length t) 50`, so
its output is empty exactly when the title is empty, and the handler's
`image` fallback is taken exactly for the empty title. -/
theorem sanitizer_length_exact (t : List Nat) :
    (sanitizeFilename t).length = min t.length 50 ∧
    (sanitizeFilename t = [] ↔ t = []) ∧
    ((t = [] ∧ sanitizedOrDefault t = asciiBytes "image") ∨
      (t ≠ [] ∧ sanitizedOrDefault t = sanitizeFilename t)) := by
  refine ⟨length_sanitizeFilename t, sanitizeFilename_eq_nil_iff t, ?_⟩
  by_cases h : t = []
  · subst h; left; exact ⟨rfl, by decide⟩
  · right
    have hne : sanitizeFilename t ≠ [] :=
      fun hnil => h ((sanitizeFilename_eq_nil_iff t).mp hnil)
    exact ⟨h, by simp [sanitizedOrDefault, hne]⟩

/-- Witness for C8 at the one-byte title `" "`. -/
theorem sanitizer_length_exact_witness :
    (sanitizeFilename [32]).length = min ([32] : List Nat).length 50 ∧
    (sanitizeFilename [32] = [] ↔ ([32] : List Nat) = []) ∧
    ((([32] : List Nat) = [] ∧ sanitizedOrDefault [32] = asciiBytes "image") ∨
      (([32] : List Nat) ≠ [] ∧ sanitizedOrDefault [32] = sanitizeFilename [32])) :=
  sanitizer_length_exact [32]

/-! ## Sniffer lemmas -/

theorem sniffExt_eq_spec (d : List Nat) : sniffExt d = sniffExtSpec d := by
  rcases d with _ | ⟨a, _ | ⟨b, _ | ⟨c, _ | ⟨e, rest⟩⟩⟩⟩
  · decide
  · simp [sniffExt, sniffExtSpec]
  · simp [sniffExt, sniffExtSpec]
  · simp [sniffExt, sniffExtSpec]
  · have hlen : ¬((a :: b :: c :: e :: rest).length < 4) := by
      simp only [List.length_cons]; omega
    simp only [sniffExt, sniffExtSpec, hlen, if_false, List.take_succ_cons,
      List.take_zero, List.cons.injEq, and_true]

theorem sniffExt_mem (d : List Nat) :
    sniffExt d ∈ [".jpg", ".png", ".gif", ".webp"] := by
  rcases d with _ | ⟨a, _ | ⟨b, _ | ⟨c, _ | ⟨e, rest⟩⟩⟩⟩ <;>
    simp only [sniffExt] <;> first
      | (split_ifs <;> simp)
      | simp

/-- C2: the Content Sniffer classifies by the fixed magic prefixes in
priority order (JPEG, PNG, GIF, WEBP), returns the default `.jpg` for
inputs shorter than 4 bytes or matching no prefix, never fails, and
always returns one of the four extension strings. -/
theorem sniffer_classification (d : List Nat) :
    sniffExt d = sniffExtSpec d ∧
    sniffExt d ∈ [".jpg", ".png", ".gif", ".webp"] :=
  ⟨sniffExt_eq_spec d, sniffExt_mem d⟩

/-- Witness for C2 at the four PNG magic bytes. -/
theorem sniffer_classification_witness :
    sniffExt [0x89, 0x50, 0x4E, 0x47] = sniffExtSpec [0x89, 0x50, 0x4E, 0x47] ∧
    sniffExt [0x89, 0x50, 0x4E, 0x47] ∈ [".jpg", ".png", ".gif", ".webp"] :=
  sniffer_classification [0x89, 0x50, 0x4E, 0x47]

/-- C10: the Sniffer's result depends only on the first 4 bytes — any two
decoded sequences of length at least 4 that agree on their first 4 bytes
receive the same extension. -/
theorem sniffer_noninterference (xs ys : List Nat)
    (hx : 4 ≤ xs.length) (hy : 4 ≤ ys.length)
    (h : xs.take 4 = ys.take 4) : sniffExt xs = sniffExt ys := by
  rcases xs with _ | ⟨a, _ | ⟨b, _ | ⟨c, _ | ⟨e, xrest⟩⟩⟩⟩ <;>
    simp only [List.length_nil, List.length_cons] at hx <;> try omega
  rcases ys with _ | ⟨a', _ | ⟨b', _ | ⟨c', _ | ⟨e', yrest⟩⟩⟩⟩ <;>
    simp only [List.length_nil, List.length_cons] at hy <;> try omega
  simp only [List.take_succ_cons, List.take_zero, List.cons.injEq,
    and_true] at h
  obtain ⟨rfl, rfl, rfl, rfl⟩ := h
  rfl

/-- Witness for C10: a JPEG header followed by different tails. -/
theorem sniffer_noninterference_witness :
    4 ≤ ([0xFF, 0xD8, 0, 0, 1] : List Nat).length ∧
    4 ≤ ([0xFF, 0xD8, 0, 0, 2, 3] : List Nat).length ∧
    ([0xFF, 0xD8, 0, 0, 1] : List Nat).take 4 =
      ([0xFF, 0xD8, 0, 0, 2, 3] : List Nat).take 4 ∧
    sniffExt [0xFF, 0xD8, 0, 0, 1] = sniffExt [0xFF, 0xD8, 0, 0, 2, 3] :=
  ⟨by decide, by decide, by decide,
    sniffer_noninterference [0xFF, 0xD8, 0, 0, 1] [0xFF, 0xD8, 0, 0, 2, 3]
      (by decide) (by decide) (by decide)⟩

/-! ## Upload handler theorems -/

/-- C1: every successful upload (non-empty image field, valid base64,
write succeeds) writes a file named `{timestamp}_{sanitizedTitle}{ext}` —
with the sanitized title coerced to `image` when empty and the extension
chosen by the Sniffer on the decoded bytes — and responds with success
and the relative URL `/uploads/{filename}` for exactly that filename. -/
theorem upload_success_response (p : ImagePayload) (ts : Nat) (data : List Nat)
    (himg : p.image ≠ []) (hdec : decodeBase64 p.image = some data) :
    handleImageUpload p ts true =
      (⟨200, true, none, some (asciiBytes "/uploads/" ++ composeFilename ts p.title data)⟩,
        some (composeFilename ts p.title data, data)) ∧
    composeFilename ts p.title data =
      natDigits ts ++ [95] ++
        (if sanitizeFilename p.title = [] then asciiBytes "image"
          else sanitizeFilename p.title) ++
        asciiBytes (sniffExt data) := by
  constructor
  · unfold handleImageUpload
    rw [if_neg himg, hdec]
    rfl
  · simp [composeFilename, sanitizedOrDefault]

/-- Witness for C1: title `"t"`, image `"AAAA"` (decoding to three zero
bytes), timestamp 100. -/
theorem upload_success_response_witness :
    (asciiBytes "AAAA" ≠ []) ∧
    decodeBase64 (asciiBytes "AAAA") = some [0, 0, 0] ∧
    (handleImageUpload ⟨[116], [], asciiBytes "AAAA"⟩ 100 true =
      (⟨200, true, none,
          some (asciiBytes "/uploads/" ++ composeFilename 100 [116] [0, 0, 0])⟩,
        some (composeFilename 100 [116] [0, 0, 0], [0, 0, 0])) ∧
      composeFilename 100 [116] [0, 0, 0] =
        natDigits 100 ++ [95] ++
          (if sanitizeFilename [116] = [] then asciiBytes "image"
            else sanitizeFilename [116]) ++
          asciiBytes (sniffExt [0, 0, 0])) :=
  ⟨by decide, by decide,
    upload_success_response ⟨[116], [], asciiBytes "AAAA"⟩ 100 [0, 0, 0]
      (by decide) (by decide)⟩

/-- C4: an upload with an empty image field is rejected 400 with error
"Image data is required", an upload whose image field is not valid base64
(`"%%%"`) is rejected 400 with error "Invalid base64 image data", and in
both cases no file is written. -/
theorem upload_rejections (title desc : List Nat) (ts : Nat) (w : Bool) :
    handleImageUpload ⟨title, desc, []⟩ ts w =
      (⟨400, false, some "Image data is required", none⟩, none) ∧
    handleImageUpload ⟨title, desc, asciiBytes "%%%"⟩ ts w =
      (⟨400, false, some "Invalid base64 image data", none⟩, none) := by
  constructor
  · rfl
  · rfl

/-- C5 counterexample: the title `"/"` consists entirely of forbidden
characters, yet sanitizes to the non-empty `"-"`, so the handler does not
coerce it to `image`: the stored filename component is `-`, and an upload
at timestamp 0 writes `0_-.jpg`. -/
theorem sanitizer_forbidden_title_not_coerced :
    (∀ b ∈ ([47] : List Nat), b ∈ forbiddenBytes) ∧
    sanitizeFilename [47] = [45] ∧
    sanitizedOrDefault [47] = [45] ∧
    [45] ≠ asciiBytes "image" ∧
    (handleImageUpload ⟨[47], [], asciiBytes "AAAA"⟩ 0 true).2 =
      some (asciiBytes "0_-.jpg", [0, 0, 0]) := by
  refine ⟨by decide, by decide, by decide, by decide, by decide⟩

/-- C5 amended: an empty title sanitizes to the empty string and is
coerced to the literal `image`; a non-empty title made entirely of
forbidden characters sanitizes to a non-empty string (its characters are
replaced, not removed) and is not coerced. -/
theorem sanitizer_fallback_empty_only (t : List Nat) :
    (t = [] → sanitizedOrDefault t = asciiBytes "image") ∧
    (t ≠ [] → (∀ b ∈ t, b ∈ forbiddenBytes) →
      sanitizedOrDefault t = sanitizeFilename t ∧ sanitizeFilename t ≠ []) := by
  constructor
  · rintro rfl; decide
  · intro hne _
    have hnil : sanitizeFilename t ≠ [] :=
      fun h => hne ((sanitizeFilename_eq_nil_iff t).mp h)
    exact ⟨by simp [sanitizedOrDefault, hnil], hnil⟩

/-- Witness for the amended C5 at the empty title and at the title `"/"`. -/
theorem sanitizer_fallback_empty_only_witness :
    sanitizedOrDefault [] = asciiBytes "image" ∧
    sanitizedOrDefault [47] = sanitizeFilename [47] ∧
    sanitizeFilename [47] ≠ [] :=
  ⟨(sanitizer_fallback_empty_only []).1 rfl,
    ((sanitizer_fallback_empty_only [47]).2 (by decide) (by decide)).1,
    ((sanitizer_fallback_empty_only [47]).2 (by decide) (by decide)).2⟩

/-! ## Listing handler theorems -/

theorem filterMap_entryRecord (stat : List Nat → Option FileInfo)
    (files : List DirEntry) :
    files.filterMap (entryRecord stat) =
      (files.filter (fun f => !f.isDir && (stat f.name).isSome)).map
        (fun f => mkImageRecord f.name ((stat f.name).getD ⟨0, 0⟩)) := by
  induction files with
  | nil => rfl
  | cons f t ih =>
    cases hd : f.isDir <;> cases hs : stat f.name <;>
      simp [List.filterMap_cons, List.filter_cons, entryRecord, hd, hs, ih]

/-- C6: for every state of the storage directory, each record the Listing
Handler produces for a non-directory entry carries a title equal to the
filename with its extension stripped and the constant description
"Uploaded image"; the submitted title and description play no part. -/
theorem listing_record_projection (files : List DirEntry)
    (stat : List Nat → Option FileInfo) (f : DirEntry) (hf : f ∈ files)
    (hdir : f.isDir = false) (info : FileInfo)
    (hstat : stat f.name = some info) :
    ∃ recs, getImageList (some files) stat = ListResult.ok recs ∧
      mkImageRecord f.name info ∈ recs ∧
      (mkImageRecord f.name info).title = trimSuffix f.name (fileExt f.name) ∧
      (mkImageRecord f.name info).description = "Uploaded image" := by
  refine ⟨files.filterMap (entryRecord stat), rfl, ?_, rfl, rfl⟩
  exact List.mem_filterMap.mpr ⟨f, hf, by simp [entryRecord, hdir, hstat]⟩

/-- Witness for C6: a directory holding the single file `"a.png"`. -/
theorem listing_record_projection_witness :
    ∃ recs,
      getImageList (some [⟨asciiBytes "a.png", false⟩])
          (fun _ => some ⟨1, 2⟩) = ListResult.ok recs ∧
      mkImageRecord (asciiBytes "a.png") ⟨1, 2⟩ ∈ recs ∧
      (mkImageRecord (asciiBytes "a.png") ⟨1, 2⟩).title =
        trimSuffix (asciiBytes "a.png") (fileExt (asciiBytes "a.png")) ∧
      (mkImageRecord (asciiBytes "a.png") ⟨1, 2⟩).description =
        "Uploaded image" :=
  listing_record_projection [⟨asciiBytes "a.png", false⟩] (fun _ => some ⟨1, 2⟩)
    ⟨asciiBytes "a.png", false⟩ (by decide) rfl ⟨1, 2⟩ rfl

/-- C7: listing an empty storage directory yields the empty array with no
error, and the 500 response "Failed to read uploads directory" occurs
exactly when the directory enumeration itself fails. -/
theorem listing_empty_ok (stat : List Nat → Option FileInfo)
    (dir : Option (List DirEntry)) (files : List DirEntry) :
    getImageList (some []) stat = ListResult.ok [] ∧
    (getImageList dir stat =
        ListResult.err500 "Failed to read uploads directory" ↔ dir = none) ∧
    (∃ recs, getImageList (some files) stat = ListResult.ok recs) := by
  refine ⟨rfl, ?_, ⟨_, rfl⟩⟩
  cases dir <;> simp [getImageList]

/-- Witness for C7 instantiated at a failing enumeration and a singleton
directory. -/
theorem listing_empty_ok_witness :
    getImageList (some []) (fun _ => none) = ListResult.ok [] ∧
    (getImageList none (fun _ => none) =
        ListResult.err500 "Failed to read uploads directory" ↔
      (none : Option (List DirEntry)) = none) ∧
    (∃ recs, getImageList (some [⟨asciiBytes "a", true⟩]) (fun _ => none) =
      ListResult.ok recs) :=
  listing_empty_ok (fun _ => none) none [⟨asciiBytes "a", true⟩]

/-- C9: when enumeration succeeds, the Listing Handler returns a 200
whose records are exactly those of the non-directory entries whose stat
succeeds — an entry with a failing stat is silently skipped and never
turns the response into an error. -/
theorem listing_skips_failed_stat (files : List DirEntry)
    (stat : List Nat → Option FileInfo) :
    getImageList (some files) stat =
      ListResult.ok
        ((files.filter (fun f => !f.isDir && (stat f.name).isSome)).map
          (fun f => mkImageRecord f.name ((stat f.name).getD ⟨0, 0⟩))) := by
  simp only [getImageList, filterMap_entryRecord]

/-- Witness for C9: one good entry, one entry whose stat fails, one
sub-directory. -/
theorem listing_skips_failed_stat_witness :
    getImageList
        (some [⟨asciiBytes "a.png", false⟩, ⟨asciiBytes "bad", false⟩,
          ⟨asciiBytes "d", true⟩])
        (fun n => if n = asciiBytes "a.png" then some ⟨3, 7⟩ else none) =
      ListResult.ok
        ((([⟨asciiBytes "a.png", false⟩, ⟨asciiBytes "bad", false⟩,
            ⟨asciiBytes "d", true⟩] : List DirEntry).filter
          (fun f => !f.isDir &&
            ((if f.name = asciiBytes "a.png" then some ⟨3, 7⟩
              else none : Option FileInfo)).isSome)).map
          (fun f => mkImageRecord f.name
            ((if f.name = asciiBytes "a.png" then some ⟨3, 7⟩
              else none : Option FileInfo).getD ⟨0, 0⟩))) :=
  listing_skips_failed_stat _ _

end AfroBase
